import Mathlib

/-!
Verification of the PDF-to-Markdown conversion pipeline
(`pdf_to_md_converter.py`): shallow embedding of the document
classifier, the strategy selector, the table renderer, the quality
scorer and the conversion orchestrator, together with proofs of the
behavioural properties stated in the specification.

Modelling conventions:
* Python strings are modelled as `List Char` wherever character-level
  transformations (replace, strip, regex counting) matter; only ASCII
  behaviour is modelled, which covers every constant in the source.
* Python floats are modelled as exact rationals (`ℚ`); the numeric
  constants 0.8, 0.85, 0.93, 0.35, 0.20, 0.25 are carried exactly.
* Module-level availability booleans (PYMUPDF_AVAILABLE and friends)
  become an explicit `Caps` record passed as a parameter.
* A Python function that can raise is modelled as returning an
  `Option`; `none` stands for an uncaught exception.
-/

set_option maxHeartbeats 1000000

namespace Pdf2Md

/-- `DocumentType` enum from the source. -/
inductive DocumentType where
  | TEXT_HEAVY
  | TABLE_HEAVY
  | MIXED_LAYOUT
  | IMAGE_HEAVY
  | SCANNED
deriving DecidableEq, Repr

/-- `ExtractionTool` enum from the source. -/
inductive ExtractionTool where
  | PYMUPDF
  | PDFPLUMBER
  | MARKER
  | OCR_THEN_MARKER
  | OCR_THEN_PYMUPDF
deriving DecidableEq, Repr

/-- The module-level availability flags (`PYMUPDF_AVAILABLE`,
`PDFPLUMBER_AVAILABLE`, `MARKER_AVAILABLE`, `TESSERACT_AVAILABLE`)
made into an explicit record. -/
structure Caps where
  pymupdf : Bool
  pdfplumber : Bool
  marker : Bool
  tesseract : Bool
deriving DecidableEq, Repr

/- ------------------------------------------------------------------
Character-level string helpers, mirroring the exact Python string
operations used by `_convert_table_to_markdown` and `score_conversion`.
------------------------------------------------------------------ -/

/-- The character class stripped by Python `str.strip()` (ASCII part):
space, tab, newline, carriage return, vertical tab, form feed. -/
def pyWs (c : Char) : Bool :=
  c = ' ' || c = '\t' || c = '\n' || c = '\x0d' || c = '\x0b' || c = '\x0c'

/-- Python `s.replace(old, new)` for a one-character pattern and a
one-character replacement: a pointwise map. -/
def replaceChar (old new : Char) (cs : List Char) : List Char :=
  cs.map (fun c => if c = old then new else c)

/-- Python `s.replace("|", "\\|")`: each pipe becomes backslash-pipe. -/
def escapePipes (cs : List Char) : List Char :=
  cs.flatMap (fun c => if c = '|' then ['\\', '|'] else [c])

/-- Python `s.strip()`: drop leading and trailing whitespace. -/
def stripChars (cs : List Char) : List Char :=
  ((cs.dropWhile pyWs).reverse.dropWhile pyWs).reverse

/-- Cell normalisation from `_convert_table_to_markdown`:
`None` becomes the empty string, otherwise
`str(cell).replace("\n", " ").replace("|", "\\|").strip()`. -/
def cleanCell (cell : Option (List Char)) : List Char :=
  match cell with
  | none => []
  | some s => stripChars (escapePipes (replaceChar '\n' ' ' s))

/-- `"| " + " | ".join(cells) + " |"` from the source. -/
def mdRow (cells : List (List Char)) : List Char :=
  "| ".data ++ List.intercalate " | ".data cells ++ " |".data

/-- The row-padding/truncation step of `_convert_table_to_markdown`:
`while len(row) < len(header): row.append("")` followed by
`row[:len(header)]`. -/
def padRow (headerLen : Nat) (row : List (List Char)) : List (List Char) :=
  (row ++ List.replicate (headerLen - row.length) []).take headerLen

/-- `_convert_table_to_markdown` from the source: first row is the
header, then a `---` separator with one cell per header column, then
the data rows padded (or truncated) to the header width; lines joined
with newlines.  An empty table renders as the empty string. -/
def convert_table_to_markdown (table : List (List (Option (List Char)))) : List Char :=
  match table.map (fun row => row.map cleanCell) with
  | [] => []
  | header :: rows =>
      let lines := mdRow header ::
        mdRow (List.replicate header.length "---".data) ::
        rows.map (fun r => mdRow (padRow header.length r))
      List.intercalate ['\n'] lines

/-- Checker for "every literal pipe is escaped": scans the character
list and rejects any `|` that is not immediately preceded by a
backslash (a backslash-pipe pair is consumed together). -/
def pipesEscaped : List Char → Bool
  | [] => true
  | [c] => c != '|'
  | c :: d :: rest =>
      if c == '|' then false
      else if c == '\\' && d == '|' then pipesEscaped rest
      else pipesEscaped (d :: rest)

/- ------------------------------------------------------------------
Document analyzer: the classification and recommendation logic of
`analyze_pdf` (the pure tail of the function, taking the accumulated
page statistics as input).
------------------------------------------------------------------ -/

/-- The fields of the `PDFAnalysis` dataclass consumed by the
classifier, the scorer and the orchestrator.  (`is_multi_column`,
`font_count`, `figures` and `metadata` are not consulted by any
verified property and are omitted.) -/
structure PDFAnalysis where
  has_text_layer : Bool
  page_count : Nat
  text_density : ℚ
  table_count : Nat
  figure_count : Nat
  document_type : DocumentType
  recommended_tool : ExtractionTool
  total_chars : Nat
deriving DecidableEq, Repr

/-- The two "override if tool not available" steps that `analyze_pdf`
applies to the recommended tool after classification: an unavailable
Marker recommendation downgrades to pdfplumber (or PyMuPDF), then an
unavailable pdfplumber recommendation downgrades to PyMuPDF. -/
def override_tool (caps : Caps) (rt0 : ExtractionTool) : ExtractionTool :=
  let rt1 :=
    if rt0 = ExtractionTool.MARKER ∧ ¬caps.marker then
      (if caps.pdfplumber then ExtractionTool.PDFPLUMBER else ExtractionTool.PYMUPDF)
    else rt0
  if rt1 = ExtractionTool.PDFPLUMBER ∧ ¬caps.pdfplumber then ExtractionTool.PYMUPDF
  else rt1

/-- The classification tail of `analyze_pdf`: computes text density,
text-layer/scan detection, the document type and the recommended tool
(including the two availability-override steps) from the accumulated
counts.  `analyze_pdf` raises unless PyMuPDF is available, so callers
carry `caps.pymupdf = true` as a precondition where relevant. -/
def analyze_classify (caps : Caps) (totalChars pageCount totalFigures totalTables : Nat) :
    PDFAnalysis :=
  let text_density : ℚ := if pageCount > 0 then (totalChars : ℚ) / (pageCount : ℚ) else 0
  let has_text_layer : Bool := decide (text_density > 100)
  let is_scanned : Bool := !has_text_layer && decide (0 < totalFigures)
  let dtRt : DocumentType × ExtractionTool :=
    if is_scanned then
      (DocumentType.SCANNED,
        if caps.marker then ExtractionTool.OCR_THEN_MARKER else ExtractionTool.OCR_THEN_PYMUPDF)
    else if (totalFigures : ℚ) > (pageCount : ℚ) * (5/10) then
      (DocumentType.IMAGE_HEAVY,
        if caps.marker then ExtractionTool.MARKER else ExtractionTool.PYMUPDF)
    else if (totalTables : ℚ) > (pageCount : ℚ) * (3/10) then
      (DocumentType.TABLE_HEAVY,
        if caps.pdfplumber then ExtractionTool.PDFPLUMBER else ExtractionTool.MARKER)
    else if 0 < totalTables ∨ 0 < totalFigures then
      (DocumentType.MIXED_LAYOUT,
        if caps.marker then ExtractionTool.MARKER else ExtractionTool.PDFPLUMBER)
    else
      (DocumentType.TEXT_HEAVY,
        if caps.pymupdf then ExtractionTool.PYMUPDF else ExtractionTool.MARKER)
  { has_text_layer := has_text_layer
    page_count := pageCount
    text_density := text_density
    table_count := totalTables
    figure_count := totalFigures
    document_type := dtRt.1
    recommended_tool := override_tool caps dtRt.2
    total_chars := totalChars }

/-- The capability a tool needs in order to run, exactly as checked by
the dispatch in the orchestrator loop (both OCR variants dispatch to
`convert_with_ocr`, guarded by `TESSERACT_AVAILABLE`). -/
def tool_available (caps : Caps) : ExtractionTool → Bool
  | ExtractionTool.PYMUPDF => caps.pymupdf
  | ExtractionTool.PDFPLUMBER => caps.pdfplumber
  | ExtractionTool.MARKER => caps.marker
  | ExtractionTool.OCR_THEN_MARKER => caps.tesseract
  | ExtractionTool.OCR_THEN_PYMUPDF => caps.tesseract

/- ------------------------------------------------------------------
Quality scorer: `score_conversion`.
------------------------------------------------------------------ -/

/-- Lines of a text, split on newline characters (the line structure
seen by the `re.MULTILINE` patterns of the scorer). -/
def splitLines : List Char → List (List Char)
  | [] => [[]]
  | c :: rest =>
      if c = '\n' then [] :: splitLines rest
      else
        match splitLines rest with
        | [] => [[c]]
        | l :: ls => (c :: l) :: ls

/-- Whether a line matches the heading pattern `^#{1,6}\s+.+$`:
one to six leading hashes, then at least one whitespace character,
then at least one further character. -/
def isHeaderLine (l : List Char) : Bool :=
  let k := (l.takeWhile (fun c => c = '#')).length
  decide (1 ≤ k) && decide (k ≤ 6) &&
    (match l.drop k with
     | c :: _ :: _ => pyWs c
     | _ => false)

/-- Whether a line matches the pipe-table row pattern `^\|.+\|$`:
starts and ends with a pipe with at least one character between. -/
def isTableLine (l : List Char) : Bool :=
  (l.head? == some '|') && (l.getLast? == some '|') && decide (3 ≤ l.length)

/-- The garbage character class of the scorer:
`[\x00-\x08\x0b\x0c\x0e-\x1f\x7f-\x9f]`. -/
def isGarbage (c : Char) : Bool :=
  let n := c.toNat
  decide (n ≤ 8) || decide (n = 0xb) || decide (n = 0xc) ||
    (decide (0xe ≤ n) && decide (n ≤ 0x1f)) ||
    (decide (0x7f ≤ n) && decide (n ≤ 0x9f))

/-- Helper for `countRepeatRuns`: scans the text keeping the current
run (character and length); a maximal run of six or more copies of a
non-newline character counts as one match of `(.)\1{5,}`. -/
def countRepeatRunsAux : Option (Char × Nat) → List Char → Nat
  | none, [] => 0
  | some (p, n), [] => if p ≠ '\n' ∧ 6 ≤ n then 1 else 0
  | none, c :: rest => countRepeatRunsAux (some (c, 1)) rest
  | some (p, n), c :: rest =>
      if c = p then countRepeatRunsAux (some (p, n + 1)) rest
      else (if p ≠ '\n' ∧ 6 ≤ n then 1 else 0) + countRepeatRunsAux (some (c, 1)) rest

/-- Number of non-overlapping matches of `(.)\1{5,}` (runs of at
least six equal non-newline characters). -/
def countRepeatRuns (cs : List Char) : Nat :=
  countRepeatRunsAux none cs

/-- The `ConversionScore` dataclass (`structure` is a Lean keyword, so
that field is named `structure_score`). -/
structure ConversionScore where
  overall_score : ℚ
  completeness : ℚ
  structure_score : ℚ
  table_integrity : ℚ
  readability : ℚ
  issues : List String
deriving DecidableEq, Repr

/-- `extracted_chars`: the length of the output after removing every
regex-whitespace character. -/
def sc_extracted_chars (md : List Char) : Nat :=
  (md.filter (fun c => !pyWs c)).length

/-- `expected_chars = original_analysis.total_chars * 0.8`. -/
def sc_expected_chars (analysis : PDFAnalysis) : ℚ :=
  (analysis.total_chars : ℚ) * (8/10)

/-- `completeness = min(1.0, extracted_chars / expected_chars)` when
`expected_chars > 0`, else the unknown-baseline 0.5. -/
def sc_completeness (analysis : PDFAnalysis) (md : List Char) : ℚ :=
  if sc_expected_chars analysis > 0 then
    min 1 ((sc_extracted_chars md : ℚ) / sc_expected_chars analysis)
  else 1/2

/-- `headers`: the number of output lines matching the Markdown
heading pattern `^#\x7b1,6\x7d\s+.+$` under `re.MULTILINE`. -/
def sc_headers (md : List Char) : Nat :=
  (splitLines md).countP isHeaderLine

/-- `expected_headers = max(3, page_count // 5)`. -/
def sc_expected_headers (analysis : PDFAnalysis) : Nat :=
  max 3 (analysis.page_count / 5)

/-- `structure = min(1.0, len(headers) / expected_headers)` guarded by
`expected_headers > 0` (else 0.5). -/
def sc_structure (analysis : PDFAnalysis) (md : List Char) : ℚ :=
  if sc_expected_headers analysis > 0 then
    min 1 ((sc_headers md : ℚ) / (sc_expected_headers analysis : ℚ))
  else 1/2

/-- `extracted_tables = table_markers // 3` where `table_markers`
counts lines matching `^\|.+\|$`. -/
def sc_extracted_tables (md : List Char) : Nat :=
  (splitLines md).countP isTableLine / 3

/-- `table_integrity`: fixed 1.0 with no expected tables, otherwise
`min(1.0, extracted_tables / analysis.table_count)`. -/
def sc_table_integrity (analysis : PDFAnalysis) (md : List Char) : ℚ :=
  if analysis.table_count > 0 then
    min 1 ((sc_extracted_tables md : ℚ) / (analysis.table_count : ℚ))
  else 1

/-- `garbage_chars`: characters of the garbage class in the output. -/
def sc_garbage_chars (md : List Char) : Nat :=
  (md.filter isGarbage).length

/-- `garbage_ratio = garbage_chars / total_chars` (meaningful only
when the output is nonempty; the source leaves it unassigned
otherwise). -/
def sc_garbage_ratio (md : List Char) : ℚ :=
  (sc_garbage_chars md : ℚ) / (md.length : ℚ)

/-- `readability = max(0, 1.0 - garbage_ratio * 10)`, multiplied by
0.8 when more than ten repeated-character runs are found. -/
def sc_readability (md : List Char) : ℚ :=
  let readability0 : ℚ := max 0 (1 - sc_garbage_ratio md * 10)
  if countRepeatRuns md > 10 then readability0 * (8/10) else readability0

/-- The itemised issues, in the order the source appends them. -/
def sc_issues (analysis : PDFAnalysis) (md : List Char) : List String :=
  let tc := analysis.table_count
  let et := sc_extracted_tables md
  (if sc_completeness analysis md < 1/2 then
      ["Significant text may be missing from output"] else []) ++
  (if sc_headers md < 2 then
      ["Few or no headers detected - document structure may be lost"] else []) ++
  (if analysis.table_count > 0 ∧ sc_extracted_tables md < analysis.table_count then
      [s!"Some tables may not have been extracted ({et}/{tc})"] else []) ++
  (if sc_garbage_ratio md > 1/100 then
      ["Output contains garbage/non-printable characters"] else []) ++
  (if countRepeatRuns md > 10 then
      ["Possible OCR artifacts detected (repeated characters)"] else [])

/-- `overall_score`, the fixed weighted combination. -/
def sc_overall (analysis : PDFAnalysis) (md : List Char) : ℚ :=
  sc_completeness analysis md * (35/100) + sc_structure analysis md * (20/100) +
    sc_table_integrity analysis md * (25/100) + sc_readability md * (20/100)

/-- `score_conversion` from the source, with each assignment of the
Python body split into the named `sc_` definitions above.  Returns
`none` exactly when the candidate output is empty: in that case the
Python code skips the assignment of `garbage_ratio` and then reads it
in the `if garbage_ratio > 0.01` issue check, raising `NameError`
instead of returning a score.  (The emptiness test is hoisted to the
front here; the computations the source performs before reaching the
failing check are pure, so this is observationally equal.) -/
def score_conversion (analysis : PDFAnalysis) (md : List Char) : Option ConversionScore :=
  if md.length = 0 then none
  else
    some { overall_score := sc_overall analysis md
           completeness := sc_completeness analysis md
           structure_score := sc_structure analysis md
           table_integrity := sc_table_integrity analysis md
           readability := sc_readability md
           issues := sc_issues analysis md }

/- ------------------------------------------------------------------
Conversion orchestrator: `convert_pdf_to_markdown` and
`_get_tool_order`.
------------------------------------------------------------------ -/

/-- `_get_tool_order` from the source: the fixed per-document-type
preference order. -/
def get_tool_order : DocumentType → List ExtractionTool
  | DocumentType.SCANNED =>
      [ExtractionTool.OCR_THEN_MARKER, ExtractionTool.OCR_THEN_PYMUPDF]
  | DocumentType.TEXT_HEAVY =>
      [ExtractionTool.PYMUPDF, ExtractionTool.MARKER, ExtractionTool.PDFPLUMBER]
  | DocumentType.TABLE_HEAVY =>
      [ExtractionTool.PDFPLUMBER, ExtractionTool.MARKER, ExtractionTool.PYMUPDF]
  | DocumentType.IMAGE_HEAVY =>
      [ExtractionTool.MARKER, ExtractionTool.PYMUPDF, ExtractionTool.PDFPLUMBER]
  | DocumentType.MIXED_LAYOUT =>
      [ExtractionTool.MARKER, ExtractionTool.PDFPLUMBER, ExtractionTool.PYMUPDF]

/-- Observable state of the orchestrator loop.  `toolsTried` is the
`tools_tried` list of the source (appended to before the availability
dispatch); `executed` records the tools whose adapter was actually
invoked; `scored` records, in order, every attempt that was scored;
`best` is the retained `(best_result, best_score)` pair, identified by
the tool that produced it together with its overall score. -/
structure LoopState where
  toolsTried : List ExtractionTool
  executed : List ExtractionTool
  scored : List (ExtractionTool × ℚ)
  best : Option (ExtractionTool × ℚ)
deriving DecidableEq, Repr

/-- The best-attempt update of the source:
`if best_result is None or score.overall_score > best_score.overall_score`. -/
def bestStep (acc : Option (ExtractionTool × ℚ)) (x : ExtractionTool × ℚ) :
    Option (ExtractionTool × ℚ) :=
  match acc with
  | none => some x
  | some b => if x.2 > b.2 then some x else some b

/-- The orchestrator retry loop of `convert_pdf_to_markdown`.
`behavior t` abstracts one full attempt with tool `t`: `none` means
the adapter (or the scorer on its output) raised, `some q` means the
attempt was scored with overall score `q`.  Unavailable tools fall
through the dispatch (`else: continue`) after having been appended to
`tools_tried`; a score at or above the threshold breaks the loop. -/
def runTools (caps : Caps) (behavior : ExtractionTool → Option ℚ) (threshold : ℚ) :
    List ExtractionTool → LoopState → LoopState
  | [], s => s
  | t :: rest, s =>
      if t ∈ s.toolsTried then runTools caps behavior threshold rest s
      else
        let s1 : LoopState := { s with toolsTried := s.toolsTried ++ [t] }
        if tool_available caps t then
          let s2 : LoopState := { s1 with executed := s1.executed ++ [t] }
          match behavior t with
          | none => runTools caps behavior threshold rest s2
          | some q =>
              let s3 : LoopState :=
                { s2 with scored := s2.scored ++ [(t, q)], best := bestStep s2.best (t, q) }
              if q ≥ threshold then s3 else runTools caps behavior threshold rest s3
        else runTools caps behavior threshold rest s1

/-- `quality_threshold = 0.93 if accuracy_critical else 0.85`. -/
def qualityThreshold (accuracy_critical : Bool) : ℚ :=
  if accuracy_critical then 93/100 else 85/100

/-- The empty initial loop state. -/
def initState : LoopState := ⟨[], [], [], none⟩

/-- Outcome of `convert_pdf_to_markdown`: the returned triple,
abstracted.  `output` is the content of the single written Markdown
file, identified by the tool that produced the retained best attempt
and its score (`none` when no file is written); `recordedTool` is the
`extraction_tool` value placed in the YAML frontmatter
(`tools_tried[-1]`). -/
structure ConvertResult where
  success : Bool
  message : String
  output : Option (ExtractionTool × ℚ)
  recordedTool : Option ExtractionTool
deriving DecidableEq, Repr

/-- `convert_pdf_to_markdown` from the source, reduced to its decision
core: the dependency check (which fails exactly when PyMuPDF is
missing), the retry loop, the `best_result is None` failure path, and
on success the frontmatter `extraction_tool` recording plus the single
file write of the best attempt.  The final loop state is returned
alongside so that theorems can speak about the attempt trace. -/
def convert_pdf_to_markdown (caps : Caps) (behavior : ExtractionTool → Option ℚ)
    (accuracy_critical : Bool) (docType : DocumentType) : ConvertResult × LoopState :=
  if !caps.pymupdf then
    ({ success := false, message := "Missing required dependencies", output := none,
       recordedTool := none }, initState)
  else
    let fin := runTools caps behavior (qualityThreshold accuracy_critical)
      (get_tool_order docType) initState
    match fin.best with
    | none =>
        ({ success := false, message := "All conversion tools failed", output := none,
           recordedTool := none }, fin)
    | some b =>
        ({ success := true, message := "Successfully converted", output := some b,
           recordedTool := fin.toolsTried.getLast? }, fin)

/- ------------------------------------------------------------------
Concrete instances used by witnesses and counterexamples.
------------------------------------------------------------------ -/

/-- All four capabilities present. -/
def capsAll : Caps := ⟨true, true, true, true⟩

/-- Only PyMuPDF present (the minimum `check_dependencies` accepts). -/
def capsOnlyPym : Caps := ⟨true, false, false, false⟩

/-- Attempt scores 0.80 / 0.90 / 0.95 along the TEXT_HEAVY order. -/
def behaviorSeq : ExtractionTool → Option ℚ
  | ExtractionTool.PYMUPDF => some (80/100)
  | ExtractionTool.MARKER => some (90/100)
  | ExtractionTool.PDFPLUMBER => some (95/100)
  | _ => none

/-- Low attempt scores with a late tie: 0.5, then 0.7 twice. -/
def behaviorLow : ExtractionTool → Option ℚ
  | ExtractionTool.PYMUPDF => some (5/10)
  | ExtractionTool.MARKER => some (7/10)
  | ExtractionTool.PDFPLUMBER => some (7/10)
  | _ => none

/-- Every attempt scores a perfect 1. -/
def behaviorPerfect : ExtractionTool → Option ℚ := fun _ => some 1

/-- Every attempt scores 0.5. -/
def behaviorHalf : ExtractionTool → Option ℚ := fun _ => some (1/2)

/-- Every adapter raises. -/
def behaviorFail : ExtractionTool → Option ℚ := fun _ => none

/-- A concrete analysis of a text document with 1000 extracted
characters (used to evaluate the scorer at the empty output). -/
def anaTextDoc : PDFAnalysis :=
  ⟨true, 10, 100, 0, 0, DocumentType.TEXT_HEAVY, ExtractionTool.PYMUPDF, 1000⟩

/-- A concrete analysis of a mixed-layout document with a positive
total character count. -/
def anaMixedDoc : PDFAnalysis :=
  ⟨true, 4, 250, 2, 1, DocumentType.MIXED_LAYOUT, ExtractionTool.MARKER, 1000⟩

/- ------------------------------------------------------------------
Helper lemmas: one unfolding lemma per branch of the orchestrator
loop, then the loop invariants used by the claim theorems.
------------------------------------------------------------------ -/

section RunToolsLemmas

variable (caps : Caps) (behavior : ExtractionTool → Option ℚ) (th : ℚ)

lemma runTools_nil (s : LoopState) : runTools caps behavior th [] s = s := rfl

lemma runTools_cons_mem {t : ExtractionTool} {s : LoopState} (h : t ∈ s.toolsTried)
    (rest : List ExtractionTool) :
    runTools caps behavior th (t :: rest) s = runTools caps behavior th rest s := by
  simp [runTools, h]

lemma runTools_cons_unavail {t : ExtractionTool} {s : LoopState} (h1 : t ∉ s.toolsTried)
    (h2 : tool_available caps t = false) (rest : List ExtractionTool) :
    runTools caps behavior th (t :: rest) s =
      runTools caps behavior th rest { s with toolsTried := s.toolsTried ++ [t] } := by
  simp [runTools, h1, h2]

lemma runTools_cons_err {t : ExtractionTool} {s : LoopState} (h1 : t ∉ s.toolsTried)
    (h2 : tool_available caps t = true) (h3 : behavior t = none) (rest : List ExtractionTool) :
    runTools caps behavior th (t :: rest) s =
      runTools caps behavior th rest
        { s with toolsTried := s.toolsTried ++ [t], executed := s.executed ++ [t] } := by
  simp [runTools, h1, h2, h3]

lemma runTools_cons_accept {t : ExtractionTool} {s : LoopState} {q : ℚ} (h1 : t ∉ s.toolsTried)
    (h2 : tool_available caps t = true) (h3 : behavior t = some q) (h4 : th ≤ q)
    (rest : List ExtractionTool) :
    runTools caps behavior th (t :: rest) s =
      { s with toolsTried := s.toolsTried ++ [t], executed := s.executed ++ [t],
               scored := s.scored ++ [(t, q)], best := bestStep s.best (t, q) } := by
  simp [runTools, h1, h2, h3, h4]

lemma runTools_cons_retry {t : ExtractionTool} {s : LoopState} {q : ℚ} (h1 : t ∉ s.toolsTried)
    (h2 : tool_available caps t = true) (h3 : behavior t = some q) (h4 : ¬ th ≤ q)
    (rest : List ExtractionTool) :
    runTools caps behavior th (t :: rest) s =
      runTools caps behavior th rest
        { s with toolsTried := s.toolsTried ++ [t], executed := s.executed ++ [t],
                 scored := s.scored ++ [(t, q)], best := bestStep s.best (t, q) } := by
  simp [runTools, h1, h2, h3, h4]

/-- The retained best attempt always equals the `bestStep` fold of the
scored-attempt trace. -/
lemma runTools_best_inv : ∀ (order : List ExtractionTool) (s : LoopState),
    s.best = s.scored.foldl bestStep none →
    (runTools caps behavior th order s).best =
      (runTools caps behavior th order s).scored.foldl bestStep none := by
  intro order
  induction order with
  | nil => intro s h; simpa [runTools_nil] using h
  | cons t rest ih =>
    intro s h
    by_cases h1 : t ∈ s.toolsTried
    · rw [runTools_cons_mem caps behavior th h1]; exact ih s h
    · by_cases h2 : tool_available caps t = true
      · cases h3 : behavior t with
        | none =>
          rw [runTools_cons_err caps behavior th h1 h2 h3]
          exact ih _ h
        | some q =>
          by_cases h4 : th ≤ q
          · rw [runTools_cons_accept caps behavior th h1 h2 h3 h4]
            simp [h, List.foldl_append]
          · rw [runTools_cons_retry caps behavior th h1 h2 h3 h4]
            exact ih _ (by simp [h, List.foldl_append])
      · rw [runTools_cons_unavail caps behavior th h1 (by simpa using h2)]
        exact ih _ h

/-- Every scored attempt except possibly the last one scored below the
threshold: the loop goes on only while the threshold is missed. -/
lemma runTools_below : ∀ (order : List ExtractionTool) (s : LoopState),
    (∀ p ∈ s.scored, p.2 < th) →
    ∀ p ∈ (runTools caps behavior th order s).scored.dropLast, p.2 < th := by
  intro order
  induction order with
  | nil =>
    intro s hall p hp
    exact hall p ((List.dropLast_sublist _).subset (by simpa [runTools_nil] using hp))
  | cons t rest ih =>
    intro s hall
    by_cases h1 : t ∈ s.toolsTried
    · rw [runTools_cons_mem caps behavior th h1]; exact ih s hall
    · by_cases h2 : tool_available caps t = true
      · cases h3 : behavior t with
        | none =>
          rw [runTools_cons_err caps behavior th h1 h2 h3]
          exact ih _ hall
        | some q =>
          by_cases h4 : th ≤ q
          · rw [runTools_cons_accept caps behavior th h1 h2 h3 h4]
            intro p hp
            simp only [List.dropLast_concat] at hp
            exact hall p hp
          · rw [runTools_cons_retry caps behavior th h1 h2 h3 h4]
            refine ih _ ?_
            intro p hp
            simp only [List.mem_append, List.mem_singleton] at hp
            rcases hp with hp | hp
            · exact hall p hp
            · subst hp; exact lt_of_not_ge h4
      · rw [runTools_cons_unavail caps behavior th h1 (by simpa using h2)]
        exact ih _ hall

/-- The executed trace extends the starting one by a prefix of the
availability-filtered order, and by the whole filtered order whenever
every scored attempt of the run stays below the threshold. -/
lemma runTools_executed : ∀ (order : List ExtractionTool) (s : LoopState),
    order.Nodup → (∀ t ∈ order, t ∉ s.toolsTried) →
    ∃ tail, (runTools caps behavior th order s).executed = s.executed ++ tail ∧
      (∃ rest2, order.filter (tool_available caps) = tail ++ rest2) ∧
      ((∀ p ∈ (runTools caps behavior th order s).scored, p.2 < th) →
        tail = order.filter (tool_available caps)) := by
  intro order
  induction order with
  | nil =>
    intro s _ _
    exact ⟨[], by simp [runTools_nil], ⟨[], by simp⟩, fun _ => by simp⟩
  | cons t rest ih =>
    intro s hnd hout
    have h1 : t ∉ s.toolsTried := hout t (List.mem_cons_self t rest)
    have hndr : rest.Nodup := (List.nodup_cons.1 hnd).2
    have htr : t ∉ rest := (List.nodup_cons.1 hnd).1
    have hout2 : ∀ u ∈ rest, u ∉ s.toolsTried ++ [t] := by
      intro u hu
      simp only [List.mem_append, List.mem_singleton]
      rintro (hmem | rfl)
      · exact hout u (List.mem_cons_of_mem t hu) hmem
      · exact htr hu
    by_cases h2 : tool_available caps t = true
    · cases h3 : behavior t with
      | none =>
        rw [runTools_cons_err caps behavior th h1 h2 h3]
        obtain ⟨tail, hexec, ⟨rest2, hpre⟩, hfull⟩ :=
          ih ⟨s.toolsTried ++ [t], s.executed ++ [t], s.scored, s.best⟩ hndr hout2
        refine ⟨t :: tail, ?_, ⟨rest2, ?_⟩, ?_⟩
        · rw [hexec]; simp
        · simp [List.filter_cons, h2, hpre]
        · intro hall
          simp only [List.filter_cons, h2, if_pos]
          rw [hfull hall]
      | some q =>
        by_cases h4 : th ≤ q
        · rw [runTools_cons_accept caps behavior th h1 h2 h3 h4]
          refine ⟨[t], by simp, ⟨rest.filter (tool_available caps),
            by simp [List.filter_cons, h2]⟩, ?_⟩
          intro hall
          exfalso
          have hlt : q < th := hall (t, q) (by simp)
          exact absurd h4 (not_le.2 hlt)
        · rw [runTools_cons_retry caps behavior th h1 h2 h3 h4]
          obtain ⟨tail, hexec, ⟨rest2, hpre⟩, hfull⟩ :=
            ih ⟨s.toolsTried ++ [t], s.executed ++ [t], s.scored ++ [(t, q)],
              bestStep s.best (t, q)⟩ hndr hout2
          refine ⟨t :: tail, ?_, ⟨rest2, ?_⟩, ?_⟩
          · rw [hexec]; simp
          · simp [List.filter_cons, h2, hpre]
          · intro hall
            simp only [List.filter_cons, h2, if_pos]
            rw [hfull hall]
    · have h2f : tool_available caps t = false := by simpa using h2
      rw [runTools_cons_unavail caps behavior th h1 h2f]
      obtain ⟨tail, hexec, ⟨rest2, hpre⟩, hfull⟩ :=
        ih ⟨s.toolsTried ++ [t], s.executed, s.scored, s.best⟩ hndr hout2
      refine ⟨tail, hexec, ⟨rest2, ?_⟩, ?_⟩
      · simp [List.filter_cons, h2f, hpre]
      · intro hall
        simp only [List.filter_cons, h2f]
        exact hfull hall

end RunToolsLemmas

/-- The `bestStep` fold of a nonempty list picks the element with the
strictly highest score, keeping the earliest among ties: everything
before it scores strictly lower, everything after at most as high. -/
lemma bestFold_spec : ∀ (l : List (ExtractionTool × ℚ)), l ≠ [] →
    ∃ p l1 l2, l.foldl bestStep none = some p ∧ l = l1 ++ p :: l2 ∧
      (∀ x ∈ l1, x.2 < p.2) ∧ (∀ x ∈ l2, x.2 ≤ p.2) := by
  intro l
  induction l using List.reverseRecOn with
  | nil => intro h; exact absurd rfl h
  | append_singleton l x ih =>
    intro _
    rcases eq_or_ne l [] with hl | hl
    · subst hl
      exact ⟨x, [], [], by simp [bestStep], by simp, by simp, by simp⟩
    · obtain ⟨p, l1, l2, hfold, hsplit, hlt, hle⟩ := ih hl
      rw [List.foldl_append, hfold]
      by_cases hx : p.2 < x.2
      · refine ⟨x, l, [], ?_, by simp, ?_, by simp⟩
        · simp [bestStep, hx]
        · intro y hy
          rw [hsplit] at hy
          rcases List.mem_append.1 hy with hy | hy
          · exact lt_trans (hlt y hy) hx
          · rcases List.mem_cons.1 hy with hy | hy
            · subst hy; exact hx
            · exact lt_of_le_of_lt (hle y hy) hx
      · refine ⟨p, l1, l2 ++ [x], ?_, ?_, hlt, ?_⟩
        · simp [bestStep, hx]
        · rw [hsplit]; simp
        · intro y hy
          rcases List.mem_append.1 hy with hy | hy
          · exact hle y hy
          · rcases List.mem_singleton.1 hy with rfl
            exact le_of_not_lt hx

/-- When the dependency check passes, the final state of the
conversion is the final state of the retry loop. -/
lemma convert_state_eq (caps : Caps) (behavior : ExtractionTool → Option ℚ) (crit : Bool)
    (dt : DocumentType) (hpm : caps.pymupdf = true) :
    (convert_pdf_to_markdown caps behavior crit dt).2 =
      runTools caps behavior (qualityThreshold crit) (get_tool_order dt) initState := by
  simp only [convert_pdf_to_markdown, hpm, Bool.not_true, Bool.false_eq_true, if_false]
  split <;> rfl

/-- An available non-OCR recommendation survives the override chain:
with PyMuPDF present, the overridden tool is always available. -/
lemma override_tool_avail (caps : Caps) (hpm : caps.pymupdf = true) (rt0 : ExtractionTool)
    (h1 : rt0 ≠ ExtractionTool.OCR_THEN_MARKER) (h2 : rt0 ≠ ExtractionTool.OCR_THEN_PYMUPDF) :
    tool_available caps (override_tool caps rt0) = true := by
  rcases caps with ⟨pm, pl, mk, ts⟩
  simp only at hpm
  subst hpm
  cases rt0 <;> cases pl <;> cases mk <;> simp_all [override_tool, tool_available]

/- ------------------------------------------------------------------
Helper lemmas: scorer component bounds.
------------------------------------------------------------------ -/

lemma sc_completeness_bounds (a : PDFAnalysis) (md : List Char) :
    0 ≤ sc_completeness a md ∧ sc_completeness a md ≤ 1 := by
  unfold sc_completeness
  split_ifs with h
  · exact ⟨le_min (by norm_num) (div_nonneg (Nat.cast_nonneg _) (le_of_lt h)),
      min_le_left _ _⟩
  · norm_num

lemma sc_structure_bounds (a : PDFAnalysis) (md : List Char) :
    0 ≤ sc_structure a md ∧ sc_structure a md ≤ 1 := by
  unfold sc_structure
  split_ifs with h
  · exact ⟨le_min (by norm_num) (div_nonneg (Nat.cast_nonneg _) (Nat.cast_nonneg _)),
      min_le_left _ _⟩
  · norm_num

lemma sc_table_integrity_bounds (a : PDFAnalysis) (md : List Char) :
    0 ≤ sc_table_integrity a md ∧ sc_table_integrity a md ≤ 1 := by
  unfold sc_table_integrity
  split_ifs with h
  · exact ⟨le_min (by norm_num) (div_nonneg (Nat.cast_nonneg _) (Nat.cast_nonneg _)),
      min_le_left _ _⟩
  · norm_num

lemma sc_garbage_ratio_nonneg (md : List Char) : 0 ≤ sc_garbage_ratio md :=
  div_nonneg (Nat.cast_nonneg _) (Nat.cast_nonneg _)

lemma sc_readability_bounds (md : List Char) :
    0 ≤ sc_readability md ∧ sc_readability md ≤ 1 := by
  have hr := sc_garbage_ratio_nonneg md
  unfold sc_readability
  have h0 : (0:ℚ) ≤ max 0 (1 - sc_garbage_ratio md * 10) := le_max_left _ _
  have h1 : max 0 (1 - sc_garbage_ratio md * 10) ≤ 1 :=
    max_le (by norm_num) (by nlinarith)
  split_ifs with h
  · exact ⟨by positivity, by nlinarith⟩
  · exact ⟨h0, h1⟩

/- ------------------------------------------------------------------
Helper lemmas: table-cell normalisation.
------------------------------------------------------------------ -/

lemma mem_escapePipes {c : Char} {cs : List Char} (h : c ∈ escapePipes cs) :
    c = '\\' ∨ c ∈ cs := by
  unfold escapePipes at h
  rcases List.mem_flatMap.1 h with ⟨d, hd, hc⟩
  by_cases hdp : d = '|'
  · subst hdp
    rw [if_pos rfl] at hc
    rcases List.mem_cons.1 hc with h1 | h1
    · exact Or.inl h1
    · rcases List.mem_singleton.1 h1 with rfl
      exact Or.inr hd
  · rw [if_neg hdp] at hc
    rcases List.mem_singleton.1 hc with rfl
    exact Or.inr hd

lemma stripChars_subset (cs : List Char) : stripChars cs ⊆ cs := by
  intro c hc
  unfold stripChars at hc
  rw [List.mem_reverse] at hc
  have h1 := (List.dropWhile_sublist pyWs).subset hc
  rw [List.mem_reverse] at h1
  exact (List.dropWhile_sublist pyWs).subset h1

/-- A normalised cell contains no newline: the first `replace` maps
every newline to a space and the later passes introduce none. -/
lemma no_newline_cleanCell (cell : Option (List Char)) : '\n' ∉ cleanCell cell := by
  cases cell with
  | none => simp [cleanCell]
  | some s =>
    intro h
    have h1 := stripChars_subset _ h
    rcases mem_escapePipes h1 with h2 | h2
    · exact absurd h2 (by decide)
    · unfold replaceChar at h2
      rcases List.mem_map.1 h2 with ⟨a, _, ha⟩
      by_cases han : a = '\n'
      · rw [if_pos han] at ha; exact absurd ha (by decide)
      · rw [if_neg han] at ha; exact han ha

lemma ws_ne_pipe {c : Char} (h : pyWs c = true) : (c == '|') = false := by
  simp only [pyWs, Bool.or_eq_true, decide_eq_true_eq] at h
  rcases h with ((((rfl | rfl) | rfl) | rfl) | rfl) | rfl <;> decide

lemma ws_ne_backslash {c : Char} (h : pyWs c = true) : (c == '\\') = false := by
  simp only [pyWs, Bool.or_eq_true, decide_eq_true_eq] at h
  rcases h with ((((rfl | rfl) | rfl) | rfl) | rfl) | rfl <;> decide

lemma pipesEscaped_cons_of_ws {c : Char} (hc : pyWs c = true) (d : Char) (rest : List Char) :
    pipesEscaped (c :: d :: rest) = pipesEscaped (d :: rest) := by
  simp [pipesEscaped, ws_ne_pipe hc, ws_ne_backslash hc]

lemma pipesEscaped_of_all_ws : ∀ (bs : List Char),
    (∀ c ∈ bs, pyWs c = true) → pipesEscaped bs = true := by
  intro bs
  induction bs with
  | nil => intro _; rfl
  | cons c bs ih =>
    intro h
    have hc := h c (by simp)
    cases bs with
    | nil =>
      simp only [pipesEscaped, bne_iff_ne, ne_eq]
      intro hcc
      rw [hcc] at hc
      exact absurd hc (by decide)
    | cons d rest =>
      rw [pipesEscaped_cons_of_ws hc]
      exact ih (fun x hx => h x (List.mem_cons_of_mem _ hx))

/-- Removing an all-whitespace suffix does not change whether every
pipe is escaped (whitespace is neither a pipe nor a backslash). -/
lemma pipesEscaped_append_ws (bs : List Char) (hbs : ∀ c ∈ bs, pyWs c = true) :
    ∀ as, pipesEscaped (as ++ bs) = pipesEscaped as := by
  intro as
  induction as using pipesEscaped.induct with
  | case1 => simpa using pipesEscaped_of_all_ws bs hbs
  | case2 c =>
    cases hbs2 : bs with
    | nil => simp
    | cons b bs2 =>
      rw [hbs2] at hbs
      have hb := hbs b (by simp)
      by_cases hcp : (c == '|') = true
      · show pipesEscaped (c :: b :: bs2) = _
        simp only [pipesEscaped, hcp, if_true, if_pos]
        simp [bne, hcp]
      · have hcp2 : (c == '|') = false := by revert hcp; cases (c == '|') <;> simp
        have hbp : (b == '|') = false := ws_ne_pipe hb
        show pipesEscaped (c :: b :: bs2) = _
        rw [show pipesEscaped (c :: b :: bs2) = pipesEscaped (b :: bs2) from by
          simp [pipesEscaped, hcp2, hbp]]
        rw [pipesEscaped_of_all_ws _ hbs]
        simp [pipesEscaped, bne, hcp2]
  | case3 c d rest hcp =>
    show pipesEscaped (c :: d :: (rest ++ bs)) = _
    simp [pipesEscaped, hcp]
  | case4 c d rest hcp hcd ih =>
    have hcp2 : (c == '|') = false := by revert hcp; cases (c == '|') <;> simp
    show pipesEscaped (c :: d :: (rest ++ bs)) = _
    simp [pipesEscaped, hcp2, hcd, ih]
  | case5 c d rest hcp hcd ih =>
    have hcp2 : (c == '|') = false := by revert hcp; cases (c == '|') <;> simp
    have hcd2 : (c == '\\' && d == '|') = false := by
      revert hcd; cases (c == '\\' && d == '|') <;> simp
    show pipesEscaped (c :: d :: (rest ++ bs)) = _
    simp only [pipesEscaped, hcp2, hcd2, Bool.false_eq_true, if_false]
    simpa using ih

lemma pipesEscaped_dropWhile (cs : List Char) (h : pipesEscaped cs = true) :
    pipesEscaped (cs.dropWhile pyWs) = true := by
  induction cs with
  | nil => simpa using h
  | cons c cs ih =>
    rw [List.dropWhile_cons]
    split_ifs with hc
    · apply ih
      cases cs with
      | nil => rfl
      | cons d rest =>
        rw [pipesEscaped_cons_of_ws hc] at h
        exact h
    · exact h

lemma pipesEscaped_stripChars (cs : List Char) (h : pipesEscaped cs = true) :
    pipesEscaped (stripChars cs) = true := by
  unfold stripChars
  have h1 : pipesEscaped (cs.dropWhile pyWs) = true := pipesEscaped_dropWhile cs h
  have hdec : cs.dropWhile pyWs =
      ((cs.dropWhile pyWs).reverse.dropWhile pyWs).reverse ++
        ((cs.dropWhile pyWs).reverse.takeWhile pyWs).reverse := by
    conv_lhs => rw [← List.reverse_reverse (cs.dropWhile pyWs),
      ← List.takeWhile_append_dropWhile (p := pyWs) (l := (cs.dropWhile pyWs).reverse)]
    rw [List.reverse_append]
  have hws : ∀ c ∈ ((cs.dropWhile pyWs).reverse.takeWhile pyWs).reverse, pyWs c = true := by
    intro c hcm
    rw [List.mem_reverse] at hcm
    exact List.mem_takeWhile_imp hcm
  have h2 : pipesEscaped
      (((cs.dropWhile pyWs).reverse.dropWhile pyWs).reverse ++
        ((cs.dropWhile pyWs).reverse.takeWhile pyWs).reverse) = true := by
    rw [← hdec]; exact h1
  rw [pipesEscaped_append_ws _ hws _] at h2
  exact h2

/-- The pipe-escaping pass leaves every pipe escaped, and its output
never starts with a bare pipe. -/
lemma pipesEscaped_escapePipes : ∀ (cs : List Char),
    pipesEscaped (escapePipes cs) = true ∧
      ∀ d rest, escapePipes cs = d :: rest → (d == '|') = false := by
  intro cs
  induction cs with
  | nil => exact ⟨rfl, fun d rest h => by simp [escapePipes] at h⟩
  | cons c cs ih =>
    obtain ⟨ih1, ih2⟩ := ih
    have hunfold : escapePipes (c :: cs) =
        (if c = '|' then ['\\', '|'] else [c]) ++ escapePipes cs := by
      simp [escapePipes]
    by_cases hc : c = '|'
    · rw [hunfold, if_pos hc]
      constructor
      · show pipesEscaped ('\\' :: '|' :: escapePipes cs) = true
        rw [show pipesEscaped ('\\' :: '|' :: escapePipes cs) = pipesEscaped (escapePipes cs)
          from by simp [pipesEscaped]]
        exact ih1
      · intro d rest h
        have hd : d = '\\' := ((List.cons.inj h).1).symm
        rw [hd]
        decide
    · rw [hunfold, if_neg hc]
      have hcp : (c == '|') = false := by simp [hc]
      constructor
      · cases hE : escapePipes cs with
        | nil => simp [pipesEscaped, hcp, bne]
        | cons d rest =>
          have hd := ih2 d rest hE
          show pipesEscaped (c :: d :: rest) = true
          rw [show pipesEscaped (c :: d :: rest) = pipesEscaped (d :: rest) from by
            simp [pipesEscaped, hcp, hd]]
          rw [← hE]
          exact ih1
      · intro d rest h
        have hd : d = c := ((List.cons.inj h).1).symm
        rw [hd]
        exact hcp

lemma pipesEscaped_cleanCell (cell : Option (List Char)) :
    pipesEscaped (cleanCell cell) = true := by
  cases cell with
  | none => rfl
  | some s => exact pipesEscaped_stripChars _ (pipesEscaped_escapePipes _).1

lemma padRow_length (n : Nat) (row : List (List Char)) : (padRow n row).length = n := by
  simp [padRow]
  omega

/- ------------------------------------------------------------------
Claim theorems.
------------------------------------------------------------------ -/

/-- Claim C1: if every scored attempt of a conversion run falls below
the active quality threshold, the orchestrator returns (as the written
output) the attempt with the strictly highest overall score among all
scored attempts; every attempt scored before it is strictly lower
(ties keep the earlier attempt) and every later one is at most as
high. -/
theorem claim_C1 (caps : Caps) (behavior : ExtractionTool → Option ℚ) (crit : Bool)
    (dt : DocumentType)
    (hbelow : ∀ p ∈ (convert_pdf_to_markdown caps behavior crit dt).2.scored,
      p.2 < qualityThreshold crit)
    (hne : (convert_pdf_to_markdown caps behavior crit dt).2.scored ≠ []) :
    ∃ p l1 l2,
      (convert_pdf_to_markdown caps behavior crit dt).1.output = some p ∧
      (convert_pdf_to_markdown caps behavior crit dt).2.scored = l1 ++ p :: l2 ∧
      (∀ x ∈ l1, x.2 < p.2) ∧ (∀ x ∈ l2, x.2 ≤ p.2) := by
  by_cases hpm : caps.pymupdf = true
  · have hr2 := convert_state_eq caps behavior crit dt hpm
    have hinv := runTools_best_inv caps behavior (qualityThreshold crit)
      (get_tool_order dt) initState (by simp [initState])
    rw [hr2] at hne
    obtain ⟨p, l1, l2, hfold, hsplit, hlt, hle⟩ := bestFold_spec _ hne
    have hbest : (runTools caps behavior (qualityThreshold crit)
        (get_tool_order dt) initState).best = some p := by rw [hinv, hfold]
    refine ⟨p, l1, l2, ?_, by rw [hr2]; exact hsplit, hlt, hle⟩
    simp only [convert_pdf_to_markdown, hpm, Bool.not_true, Bool.false_eq_true, if_false]
    rw [hbest]
  · exfalso
    apply hne
    have hf : caps.pymupdf = false := by simpa using hpm
    simp [convert_pdf_to_markdown, hf, initState]

/-- Witness for claim C1 at a concrete run: all capabilities present,
attempt scores 0.5 / 0.7 / 0.7 (all below the default threshold
0.85), exercising both the strict improvement and the kept-earlier
tie. -/
theorem claim_C1_witness :
    ∃ p l1 l2,
      (convert_pdf_to_markdown capsAll behaviorLow false DocumentType.TEXT_HEAVY).1.output
          = some p ∧
      (convert_pdf_to_markdown capsAll behaviorLow false DocumentType.TEXT_HEAVY).2.scored
          = l1 ++ p :: l2 ∧
      (∀ x ∈ l1, x.2 < p.2) ∧ (∀ x ∈ l2, x.2 ≤ p.2) :=
  claim_C1 capsAll behaviorLow false DocumentType.TEXT_HEAVY
    (by
      have h : (convert_pdf_to_markdown capsAll behaviorLow false
          DocumentType.TEXT_HEAVY).2.scored =
          [(ExtractionTool.PYMUPDF, 5/10), (ExtractionTool.MARKER, 7/10),
            (ExtractionTool.PDFPLUMBER, 7/10)] := by
        norm_num +decide [convert_pdf_to_markdown, runTools, qualityThreshold, get_tool_order,
          initState, bestStep, tool_available, behaviorLow, capsAll]
      rw [h]
      intro p hp
      simp only [List.mem_cons, List.not_mem_nil, or_false] at hp
      rcases hp with rfl | rfl | rfl <;> norm_num [qualityThreshold])
    (by
      have h : (convert_pdf_to_markdown capsAll behaviorLow false
          DocumentType.TEXT_HEAVY).2.scored =
          [(ExtractionTool.PYMUPDF, 5/10), (ExtractionTool.MARKER, 7/10),
            (ExtractionTool.PDFPLUMBER, 7/10)] := by
        norm_num +decide [convert_pdf_to_markdown, runTools, qualityThreshold, get_tool_order,
          initState, bestStep, tool_available, behaviorLow, capsAll]
      rw [h]
      simp)

/-- Claim C2: the active threshold is 0.93 when accuracy-critical and
0.85 otherwise; the orchestrator stops at the first scored attempt
meeting it (every scored attempt but the last is below threshold);
and on the synthetic score sequence 0.80 / 0.90 / 0.95 the default
mode accepts the second attempt while the accuracy-critical mode
accepts the third. -/
theorem claim_C2 :
    (qualityThreshold true = 93/100 ∧ qualityThreshold false = 85/100) ∧
    (∀ (caps : Caps) (behavior : ExtractionTool → Option ℚ) (crit : Bool) (dt : DocumentType),
      ∀ p ∈ ((convert_pdf_to_markdown caps behavior crit dt).2.scored).dropLast,
        p.2 < qualityThreshold crit) ∧
    ((convert_pdf_to_markdown capsAll behaviorSeq false DocumentType.TEXT_HEAVY).2.scored =
        [(ExtractionTool.PYMUPDF, 4/5), (ExtractionTool.MARKER, 9/10)] ∧
      (convert_pdf_to_markdown capsAll behaviorSeq false DocumentType.TEXT_HEAVY).1.output =
        some (ExtractionTool.MARKER, 9/10)) ∧
    ((convert_pdf_to_markdown capsAll behaviorSeq true DocumentType.TEXT_HEAVY).2.scored =
        [(ExtractionTool.PYMUPDF, 4/5), (ExtractionTool.MARKER, 9/10),
          (ExtractionTool.PDFPLUMBER, 19/20)] ∧
      (convert_pdf_to_markdown capsAll behaviorSeq true DocumentType.TEXT_HEAVY).1.output =
        some (ExtractionTool.PDFPLUMBER, 19/20)) := by
  refine ⟨⟨by norm_num [qualityThreshold], by norm_num [qualityThreshold]⟩, ?_, ?_, ?_⟩
  · intro caps behavior crit dt
    by_cases hpm : caps.pymupdf = true
    · rw [convert_state_eq caps behavior crit dt hpm]
      exact runTools_below caps behavior (qualityThreshold crit) (get_tool_order dt)
        initState (by simp [initState])
    · have hf : caps.pymupdf = false := by simpa using hpm
      simp [convert_pdf_to_markdown, hf, initState]
  · constructor <;>
      norm_num +decide [convert_pdf_to_markdown, runTools, qualityThreshold, get_tool_order,
        initState, bestStep, tool_available, behaviorSeq, capsAll]
  · constructor <;>
      norm_num +decide [convert_pdf_to_markdown, runTools, qualityThreshold, get_tool_order,
        initState, bestStep, tool_available, behaviorSeq, capsAll]

/-- Counterexample to claim C3 as stated: with every capability
present and a first attempt meeting the threshold, the run executes
only the first strategy, so the executed sequence differs from the
availability-filtered preference order. -/
theorem claim_C3_counterexample :
    (convert_pdf_to_markdown capsAll behaviorPerfect false DocumentType.TEXT_HEAVY).2.executed
        = [ExtractionTool.PYMUPDF] ∧
    (get_tool_order DocumentType.TEXT_HEAVY).filter (tool_available capsAll)
        = [ExtractionTool.PYMUPDF, ExtractionTool.MARKER, ExtractionTool.PDFPLUMBER] ∧
    (convert_pdf_to_markdown capsAll behaviorPerfect false DocumentType.TEXT_HEAVY).2.executed
        ≠ (get_tool_order DocumentType.TEXT_HEAVY).filter (tool_available capsAll) := by
  norm_num +decide [convert_pdf_to_markdown, runTools, qualityThreshold, get_tool_order,
    initState, bestStep, tool_available, behaviorPerfect, capsAll]

/-- Claim C3 as amended: the executed strategy sequence is a prefix of
the fixed per-type preference order restricted to available
strategies, equal to the whole restriction when no scored attempt
meets the threshold; no strategy is executed twice and unavailable
strategies are skipped (never executed, no error raised). -/
theorem claim_C3_amended (caps : Caps) (behavior : ExtractionTool → Option ℚ) (crit : Bool)
    (dt : DocumentType) (hdeps : caps.pymupdf = true) :
    (∃ rest2, (get_tool_order dt).filter (tool_available caps) =
      (convert_pdf_to_markdown caps behavior crit dt).2.executed ++ rest2) ∧
    (convert_pdf_to_markdown caps behavior crit dt).2.executed.Nodup ∧
    (∀ t ∈ (convert_pdf_to_markdown caps behavior crit dt).2.executed,
      tool_available caps t = true) ∧
    ((∀ p ∈ (convert_pdf_to_markdown caps behavior crit dt).2.scored,
        p.2 < qualityThreshold crit) →
      (convert_pdf_to_markdown caps behavior crit dt).2.executed =
        (get_tool_order dt).filter (tool_available caps)) := by
  have hr2 := convert_state_eq caps behavior crit dt hdeps
  have hnd : (get_tool_order dt).Nodup := by cases dt <;> decide
  obtain ⟨tail, hexec, ⟨rest2, hpre⟩, hfull⟩ :=
    runTools_executed caps behavior (qualityThreshold crit) (get_tool_order dt) initState
      hnd (by simp [initState])
  have hexec2 : (convert_pdf_to_markdown caps behavior crit dt).2.executed = tail := by
    rw [hr2, hexec]; simp [initState]
  have hsub : tail.Sublist ((get_tool_order dt).filter (tool_available caps)) := by
    rw [hpre]; exact List.sublist_append_left tail rest2
  refine ⟨⟨rest2, by rw [hexec2, hpre]⟩, ?_, ?_, ?_⟩
  · rw [hexec2]
    exact hsub.nodup (hnd.filter (tool_available caps))
  · intro t ht
    rw [hexec2] at ht
    exact List.of_mem_filter (hsub.subset ht)
  · intro hall
    rw [hexec2]
    exact hfull (by rw [← hr2]; exact hall)

/-- Witness for the amended claim C3 at a concrete run with all
capabilities present and all attempt scores below the threshold. -/
theorem claim_C3_amended_witness :
    (∃ rest2, (get_tool_order DocumentType.TEXT_HEAVY).filter (tool_available capsAll) =
      (convert_pdf_to_markdown capsAll behaviorLow false
        DocumentType.TEXT_HEAVY).2.executed ++ rest2) ∧
    (convert_pdf_to_markdown capsAll behaviorLow false
      DocumentType.TEXT_HEAVY).2.executed.Nodup ∧
    (∀ t ∈ (convert_pdf_to_markdown capsAll behaviorLow false
        DocumentType.TEXT_HEAVY).2.executed, tool_available capsAll t = true) ∧
    ((∀ p ∈ (convert_pdf_to_markdown capsAll behaviorLow false
        DocumentType.TEXT_HEAVY).2.scored, p.2 < qualityThreshold false) →
      (convert_pdf_to_markdown capsAll behaviorLow false DocumentType.TEXT_HEAVY).2.executed =
        (get_tool_order DocumentType.TEXT_HEAVY).filter (tool_available capsAll)) :=
  claim_C3_amended capsAll behaviorLow false DocumentType.TEXT_HEAVY rfl

/-- Claim C4 (spec side) against the code: `score_conversion` does not
return a score on the empty candidate output (the code raises there,
modelled as `none`), so the claimed for-all fails at the empty string;
whenever a score is returned, the four components do lie in the unit
interval and the overall score equals the fixed weighted combination
0.35, 0.20, 0.25, 0.20 of them to within 1e-9. -/
theorem claim_C4 :
    score_conversion anaTextDoc [] = none ∧
    (∀ (analysis : PDFAnalysis) (md : List Char) (s : ConversionScore),
      score_conversion analysis md = some s →
      (0 ≤ s.completeness ∧ s.completeness ≤ 1) ∧
      (0 ≤ s.structure_score ∧ s.structure_score ≤ 1) ∧
      (0 ≤ s.table_integrity ∧ s.table_integrity ≤ 1) ∧
      (0 ≤ s.readability ∧ s.readability ≤ 1) ∧
      |s.overall_score - (35/100 * s.completeness + 20/100 * s.structure_score +
        25/100 * s.table_integrity + 20/100 * s.readability)| < 1/1000000000) := by
  constructor
  · rfl
  · intro analysis md s hs
    unfold score_conversion at hs
    split_ifs at hs
    obtain rfl : ({ overall_score := sc_overall analysis md
                    completeness := sc_completeness analysis md
                    structure_score := sc_structure analysis md
                    table_integrity := sc_table_integrity analysis md
                    readability := sc_readability md
                    issues := sc_issues analysis md } : ConversionScore) = s :=
      Option.some.inj hs
    refine ⟨sc_completeness_bounds _ _, sc_structure_bounds _ _,
      sc_table_integrity_bounds _ _, sc_readability_bounds _, ?_⟩
    have hz : sc_overall analysis md - (35/100 * sc_completeness analysis md +
        20/100 * sc_structure analysis md + 25/100 * sc_table_integrity analysis md +
        20/100 * sc_readability md) = 0 := by
      unfold sc_overall; ring
    simp only [hz]
    norm_num

/-- Claim C5 counterexample: with OCR (tesseract) unavailable, a
document classified Scanned still gets an OCR-based recommendation,
whose required capability is not available at selection time. -/
theorem claim_C5_counterexample :
    (analyze_classify capsOnlyPym 0 1 1 0).document_type = DocumentType.SCANNED ∧
    (analyze_classify capsOnlyPym 0 1 1 0).recommended_tool = ExtractionTool.OCR_THEN_PYMUPDF ∧
    tool_available capsOnlyPym
      (analyze_classify capsOnlyPym 0 1 1 0).recommended_tool = false := by
  norm_num +decide [analyze_classify, override_tool, tool_available, capsOnlyPym]

/-- Claim C5 as amended: with PyMuPDF present (a precondition of the
analyzer), every non-Scanned classification recommends a strategy
whose capability is available, via the availability downgrade; a
Scanned classification always recommends an OCR-based strategy,
regardless of whether the OCR capability is available. -/
theorem claim_C5_amended (caps : Caps) (totalChars pageCount totalFigures totalTables : Nat)
    (hdeps : caps.pymupdf = true) :
    ((analyze_classify caps totalChars pageCount totalFigures totalTables).document_type ≠
        DocumentType.SCANNED →
      tool_available caps
        (analyze_classify caps totalChars pageCount totalFigures totalTables).recommended_tool
        = true) ∧
    ((analyze_classify caps totalChars pageCount totalFigures totalTables).document_type =
        DocumentType.SCANNED →
      ((analyze_classify caps totalChars pageCount totalFigures totalTables).recommended_tool =
          ExtractionTool.OCR_THEN_MARKER ∨
        (analyze_classify caps totalChars pageCount totalFigures totalTables).recommended_tool =
          ExtractionTool.OCR_THEN_PYMUPDF)) := by
  simp only [analyze_classify]
  split_ifs <;>
    first
      | · refine ⟨fun hne => absurd rfl hne, fun _ => ?_⟩
          simp [override_tool]
      | exact ⟨fun _ => override_tool_avail caps hdeps _ (by decide) (by decide),
          fun hdt => absurd hdt (by decide)⟩

/-- Witness for the amended claim C5 at a concrete text-heavy
analysis with only PyMuPDF available. -/
theorem claim_C5_amended_witness :
    ((analyze_classify capsOnlyPym 1000 2 0 0).document_type ≠ DocumentType.SCANNED →
      tool_available capsOnlyPym
        (analyze_classify capsOnlyPym 1000 2 0 0).recommended_tool = true) ∧
    ((analyze_classify capsOnlyPym 1000 2 0 0).document_type = DocumentType.SCANNED →
      ((analyze_classify capsOnlyPym 1000 2 0 0).recommended_tool =
          ExtractionTool.OCR_THEN_MARKER ∨
        (analyze_classify capsOnlyPym 1000 2 0 0).recommended_tool =
          ExtractionTool.OCR_THEN_PYMUPDF)) :=
  claim_C5_amended capsOnlyPym 1000 2 0 0 rfl

/-- Claim C6: for every analysis the classifier produces, the
document type is Scanned exactly when there is no text layer and at
least one figure was detected; and the text layer is absent exactly
when the text density is at most 100 characters per page. -/
theorem claim_C6 (caps : Caps) (totalChars pageCount totalFigures totalTables : Nat) :
    ((analyze_classify caps totalChars pageCount totalFigures totalTables).document_type =
        DocumentType.SCANNED ↔
      ((analyze_classify caps totalChars pageCount totalFigures totalTables).has_text_layer =
          false ∧ 0 < totalFigures)) ∧
    ((analyze_classify caps totalChars pageCount totalFigures totalTables).has_text_layer = false
      ↔ (analyze_classify caps totalChars pageCount totalFigures totalTables).text_density
          ≤ 100) := by
  simp only [analyze_classify]
  split_ifs <;> simp_all [not_lt]

/-- Claim C7: a run that ends with zero scored attempts (every
strategy raised or was unavailable) fails: the returned triple has
success false, the message "All conversion tools failed" and no
output path, and no output file content is produced. -/
theorem claim_C7 (caps : Caps) (behavior : ExtractionTool → Option ℚ) (crit : Bool)
    (dt : DocumentType) (hdeps : caps.pymupdf = true)
    (hempty : (convert_pdf_to_markdown caps behavior crit dt).2.scored = []) :
    (convert_pdf_to_markdown caps behavior crit dt).1.success = false ∧
    (convert_pdf_to_markdown caps behavior crit dt).1.message = "All conversion tools failed" ∧
    (convert_pdf_to_markdown caps behavior crit dt).1.output = none := by
  have hr2 := convert_state_eq caps behavior crit dt hdeps
  rw [hr2] at hempty
  have hinv := runTools_best_inv caps behavior (qualityThreshold crit)
    (get_tool_order dt) initState (by simp [initState])
  have hbest : (runTools caps behavior (qualityThreshold crit)
      (get_tool_order dt) initState).best = none := by
    rw [hinv, hempty]; rfl
  refine ⟨?_, ?_, ?_⟩ <;>
    · simp only [convert_pdf_to_markdown, hdeps, Bool.not_true, Bool.false_eq_true, if_false]
      rw [hbest]

/-- Witness for claim C7: only PyMuPDF present and every adapter
raising yields the failure triple. -/
theorem claim_C7_witness :
    (convert_pdf_to_markdown capsOnlyPym behaviorFail false DocumentType.TEXT_HEAVY).1.success
        = false ∧
    (convert_pdf_to_markdown capsOnlyPym behaviorFail false DocumentType.TEXT_HEAVY).1.message
        = "All conversion tools failed" ∧
    (convert_pdf_to_markdown capsOnlyPym behaviorFail false DocumentType.TEXT_HEAVY).1.output
        = none :=
  claim_C7 capsOnlyPym behaviorFail false DocumentType.TEXT_HEAVY rfl
    (by
      norm_num +decide [convert_pdf_to_markdown, runTools, qualityThreshold, get_tool_order,
        initState, bestStep, tool_available, behaviorFail, capsOnlyPym])

/-- Claim C8: table-to-Markdown conversion. In every rendered table,
cells are normalised with newlines flattened and pipes escaped, a
`None` cell renders as the empty string, and every data row is padded
or truncated to exactly the header column count; the synthetic table
[[A, B], [1, 2|3], [4, None]] renders as the expected two-column pipe
table with a `---` separator row, the pipe escaped and the `None`
cell empty. -/
theorem claim_C8 :
    (∀ cell, '\n' ∉ cleanCell cell) ∧
    (∀ cell, pipesEscaped (cleanCell cell) = true) ∧
    cleanCell none = [] ∧
    (∀ n row, (padRow n row).length = n) ∧
    convert_table_to_markdown
        [[some "A".data, some "B".data], [some "1".data, some "2|3".data],
          [some "4".data, none]] =
      "| A | B |\n| --- | --- |\n| 1 | 2\\|3 |\n| 4 |  |".data :=
  ⟨no_newline_cleanCell, pipesEscaped_cleanCell, rfl, padRow_length, by decide⟩

/-- Claim C9: for every analysis with a positive total character
count, scoring the empty candidate output does not return a score:
the source reads the unassigned garbage-ratio variable and raises
(modelled as `none`). -/
theorem claim_C9 (analysis : PDFAnalysis) (h : 0 < analysis.total_chars) :
    score_conversion analysis [] = none := rfl

/-- Witness for claim C9 at a concrete mixed-layout analysis with
1000 extracted characters. -/
theorem claim_C9_witness :
    0 < anaMixedDoc.total_chars ∧ score_conversion anaMixedDoc [] = none :=
  ⟨by norm_num [anaMixedDoc], claim_C9 anaMixedDoc (by norm_num [anaMixedDoc])⟩

/-- Claim C10: on a successful conversion the frontmatter records the
last entry of the attempted-tools list, which also grows for
unavailable strategies; concretely, with only PyMuPDF available the
written output comes from PyMuPDF while the recorded tool is
pdfplumber, a strategy that was never executed. -/
theorem claim_C10 :
    (convert_pdf_to_markdown capsOnlyPym behaviorHalf false DocumentType.TEXT_HEAVY).1.success
        = true ∧
    (convert_pdf_to_markdown capsOnlyPym behaviorHalf false DocumentType.TEXT_HEAVY).1.output
        = some (ExtractionTool.PYMUPDF, 1/2) ∧
    (convert_pdf_to_markdown capsOnlyPym behaviorHalf false DocumentType.TEXT_HEAVY).2.toolsTried
        = [ExtractionTool.PYMUPDF, ExtractionTool.MARKER, ExtractionTool.PDFPLUMBER] ∧
    (convert_pdf_to_markdown capsOnlyPym behaviorHalf false DocumentType.TEXT_HEAVY).1.recordedTool
        = ((convert_pdf_to_markdown capsOnlyPym behaviorHalf false
            DocumentType.TEXT_HEAVY).2.toolsTried).getLast? ∧
    (convert_pdf_to_markdown capsOnlyPym behaviorHalf false DocumentType.TEXT_HEAVY).1.recordedTool
        = some ExtractionTool.PDFPLUMBER ∧
    tool_available capsOnlyPym ExtractionTool.MARKER = false ∧
    tool_available capsOnlyPym ExtractionTool.PDFPLUMBER = false ∧
    (convert_pdf_to_markdown capsOnlyPym behaviorHalf false DocumentType.TEXT_HEAVY).2.executed
        = [ExtractionTool.PYMUPDF] ∧
    (convert_pdf_to_markdown capsOnlyPym behaviorHalf false DocumentType.TEXT_HEAVY).1.recordedTool
        ≠ some ExtractionTool.PYMUPDF := by
  norm_num +decide [convert_pdf_to_markdown, runTools, qualityThreshold, get_tool_order,
    initState, bestStep, tool_available, behaviorHalf, capsOnlyPym]

end Pdf2Md
